import Mathlib

/-!
Verification of the stub CLI program in scripts/rust_lint_fix.rs.

The program is embedded shallowly: file contents are lists of Unicode
scalar values (Lean `Char` coincides with Rust `char`), the byte length
of a string is the sum of the UTF-8 sizes of its characters (Rust
`String::len`), and a run of `main` is a pure function from the process
argument list and the filesystem (a map from paths to an optional
decoded content, `none` covering every failure of `fs::read_to_string`)
to a trace of I/O effects plus an exit outcome.  Rust string slicing
`&s[..n]` is modelled by `sliceTo`, which fails (the program panics)
when `n` is not a character boundary.  On that panic the Rust runtime's
default panic hook writes a diagnostic to standard error before the
process aborts; the embedding records it as one stderr effect.
-/

set_option autoImplicit false

/-- UTF-8 size in bytes of one scalar value, as in Rust `char::len_utf8`. -/
def utf8Size (c : Char) : Nat :=
  if c.val < 0x80 then 1
  else if c.val < 0x800 then 2
  else if c.val < 0x10000 then 3
  else 4

/-- Byte length of a decoded string, as in Rust `String::len`. -/
def byteLen : List Char → Nat
  | [] => 0
  | c :: cs => utf8Size c + byteLen cs

/-- Whether byte index `n` is a character boundary of the string
(including `n = byteLen s`); `false` also when `n` is out of range. -/
def isBoundary : List Char → Nat → Bool
  | [], n => n == 0
  | c :: cs, n => if n = 0 then true
      else if utf8Size c ≤ n then isBoundary cs (n - utf8Size c) else false

/-- The characters of the first `n` bytes; meaningful when `isBoundary s n`. -/
def takeBytes : List Char → Nat → List Char
  | [], _ => []
  | c :: cs, n => if n = 0 then [] else c :: takeBytes cs (n - utf8Size c)

/-- The characters after the first `n` bytes; meaningful when `isBoundary s n`. -/
def dropBytes : List Char → Nat → List Char
  | [], _ => []
  | c :: cs, n => if n = 0 then c :: cs else dropBytes cs (n - utf8Size c)

/-- Rust byte slicing `&s[..n]`: `none` models the panic on a
non-boundary (or out-of-range) index. -/
def sliceTo (s : List Char) (n : Nat) : Option (List Char) :=
  if isBoundary s n then some (takeBytes s n) else none

/-- One observable I/O effect of the program.  `writeFile` never occurs
in the embedded program; it is part of the effect language so that the
absence of filesystem mutation is a statement, not a tautology of the
type. -/
inductive Effect : Type where
  | printLn (s : String)
  | eprintLn (s : String)
  | readFile (path : String)
  | writeFile (path : String) (contents : List Char)
  deriving DecidableEq

/-- How the process ends: a normal exit with a status code, or a panic
(Rust aborts the thread; the process exit status is then not 0). -/
inductive Outcome : Type where
  | exited (code : Nat)
  | panicked
  deriving DecidableEq

/-- The observable behaviour of one invocation. -/
structure RunResult : Type where
  trace : List Effect
  outcome : Outcome
  deriving DecidableEq

/-- The usage line printed on stderr (source line 7). -/
def usageMsg : String := "Usage: rust_lint_fix <file>"

/-- The informational line printed on stdout (source line 11). -/
def infoMsg (file_path : String) : String :=
  "[Rust Lint Fixer] Would lint and fix errors in file: " ++ file_path

/-- The preview line printed on stdout (source line 15). -/
def previewMsg (preview : List Char) : String :=
  "File contents (first 100 chars): " ++ String.mk preview

/-- The fallback line printed on stdout (source line 17). -/
def couldNotReadMsg : String := "Could not read file."

/-- Modelled from the Rust runtime: when byte slicing panics on a
non-boundary index, the default panic hook writes a diagnostic to
standard error before the thread aborts.  The real text also names the
thread, the source location, the character and a string excerpt, and
varies with the toolchain; it is abstracted here as one line carrying
the offending byte index. -/
def panicMsg (n : Nat) : String :=
  "thread main panicked: byte index " ++ toString n ++
    " is not a char boundary"

/-- Shallow embedding of `main` from scripts/rust_lint_fix.rs.
`args` is the full process argument list (index 0 the program name) and
`fs` maps a path to `some` decoded contents when `fs::read_to_string`
succeeds and to `none` when it fails for any reason. -/
def rust_lint_fix_main (args : List String)
    (fs : String → Option (List Char)) : RunResult :=
  if args.length < 2 then
    { trace := [Effect.eprintLn usageMsg], outcome := Outcome.exited 1 }
  else
    let file_path := args.getD 1 ""
    match fs file_path with
    | some contents =>
        match sliceTo contents (min (byteLen contents) 100) with
        | some preview =>
            { trace := [Effect.printLn (infoMsg file_path),
                        Effect.readFile file_path,
                        Effect.printLn (previewMsg preview)],
              outcome := Outcome.exited 0 }
        | none =>
            { trace := [Effect.printLn (infoMsg file_path),
                        Effect.readFile file_path,
                        Effect.eprintLn (panicMsg (min (byteLen contents) 100))],
              outcome := Outcome.panicked }
    | none =>
        { trace := [Effect.printLn (infoMsg file_path),
                    Effect.readFile file_path,
                    Effect.printLn couldNotReadMsg],
          outcome := Outcome.exited 0 }

/-- Recognises a read effect. -/
def isReadEffect : Effect → Bool
  | Effect.readFile _ => true
  | _ => false

/-- Recognises a write (filesystem-mutating) effect. -/
def isWriteEffect : Effect → Bool
  | Effect.writeFile _ _ => true
  | _ => false

/-- Recognises a stderr effect. -/
def isErrEffect : Effect → Bool
  | Effect.eprintLn _ => true
  | _ => false

/-- A run accesses no file at all. -/
def noReadEffects (r : RunResult) : Bool :=
  r.trace.all fun e => !(isReadEffect e)

/-- A run mutates no file. -/
def noWriteEffects (r : RunResult) : Bool :=
  r.trace.all fun e => !(isWriteEffect e)

/-- 99 ASCII bytes followed by U+00E9 (2 bytes in UTF-8): byte length
101, and byte index 100 falls inside the last character. -/
def badContent : List Char := List.replicate 99 'a' ++ ['é']

/-- A filesystem holding `badContent` at path f.txt. -/
def fsBad : String → Option (List Char) :=
  fun p => if p = "f.txt" then some badContent else none

/-- A filesystem holding the two-character ASCII file hi at ok.txt. -/
def fsOk : String → Option (List Char) :=
  fun p => if p = "ok.txt" then some ['h', 'i'] else none

/-- The empty filesystem: every read fails. -/
def fsEmpty : String → Option (List Char) := fun _ => none

set_option maxRecDepth 8000

/-- Every character occupies at least one byte. -/
theorem utf8Size_pos (c : Char) : 1 ≤ utf8Size c := by
  unfold utf8Size
  split
  · omega
  split
  · omega
  split <;> omega

/-- The total byte length is always a character boundary. -/
theorem isBoundary_byteLen (s : List Char) : isBoundary s (byteLen s) = true := by
  induction s with
  | nil => rfl
  | cons c cs ih =>
      have hpos := utf8Size_pos c
      unfold isBoundary byteLen
      rw [if_neg (by omega), if_pos (by omega), Nat.add_sub_cancel_left]
      exact ih

/-- Taking the full byte length returns the whole string. -/
theorem takeBytes_byteLen (s : List Char) : takeBytes s (byteLen s) = s := by
  induction s with
  | nil => rfl
  | cons c cs ih =>
      have hpos := utf8Size_pos c
      unfold takeBytes byteLen
      rw [if_neg (by omega), Nat.add_sub_cancel_left, ih]

/-- On a character boundary, the slice has exactly the requested byte
length. -/
theorem byteLen_takeBytes (s : List Char) (n : Nat)
    (h : isBoundary s n = true) : byteLen (takeBytes s n) = n := by
  induction s generalizing n with
  | nil =>
      have : n = 0 := by simpa [isBoundary] using h
      subst this
      rfl
  | cons c cs ih =>
      by_cases h0 : n = 0
      · subst h0
        simp [takeBytes, byteLen]
      · unfold isBoundary at h
        rw [if_neg h0] at h
        by_cases hle : utf8Size c ≤ n
        · rw [if_pos hle] at h
          simp only [takeBytes, if_neg h0, byteLen]
          rw [ih (n - utf8Size c) h]
          omega
        · rw [if_neg hle] at h
          exact absurd h (by simp)

/-- On a character boundary, the slice is a prefix of the string: the
string is the slice followed by the rest. -/
theorem takeBytes_append_dropBytes (s : List Char) (n : Nat)
    (h : isBoundary s n = true) : takeBytes s n ++ dropBytes s n = s := by
  induction s generalizing n with
  | nil => rfl
  | cons c cs ih =>
      by_cases h0 : n = 0
      · subst h0
        simp [takeBytes, dropBytes]
      · unfold isBoundary at h
        rw [if_neg h0] at h
        by_cases hle : utf8Size c ≤ n
        · rw [if_pos hle] at h
          simp only [takeBytes, dropBytes, if_neg h0, List.cons_append,
            ih (n - utf8Size c) h]
        · rw [if_neg hle] at h
          exact absurd h (by simp)

/-- Unfolding of a run with a file path, successful read and a slice on
a character boundary. -/
theorem run_eq_of_read_some_boundary (args : List String)
    (fs : String → Option (List Char)) (contents : List Char)
    (h2 : 2 ≤ args.length)
    (hread : fs (args.getD 1 "") = some contents)
    (hb : isBoundary contents (min (byteLen contents) 100) = true) :
    rust_lint_fix_main args fs =
      { trace := [Effect.printLn (infoMsg (args.getD 1 "")),
                  Effect.readFile (args.getD 1 ""),
                  Effect.printLn (previewMsg
                    (takeBytes contents (min (byteLen contents) 100)))],
        outcome := Outcome.exited 0 } := by
  have hlt : ¬ args.length < 2 := by omega
  simp only [rust_lint_fix_main, if_neg hlt, hread, sliceTo, if_pos hb]

/-- Unfolding of a run with a file path, successful read and a slice
index that is not a character boundary: the program panics, the runtime
writing its diagnostic to standard error. -/
theorem run_eq_of_read_some_noboundary (args : List String)
    (fs : String → Option (List Char)) (contents : List Char)
    (h2 : 2 ≤ args.length)
    (hread : fs (args.getD 1 "") = some contents)
    (hb : isBoundary contents (min (byteLen contents) 100) = false) :
    rust_lint_fix_main args fs =
      { trace := [Effect.printLn (infoMsg (args.getD 1 "")),
                  Effect.readFile (args.getD 1 ""),
                  Effect.eprintLn (panicMsg (min (byteLen contents) 100))],
        outcome := Outcome.panicked } := by
  have hlt : ¬ args.length < 2 := by omega
  have hb' : ¬ isBoundary contents (min (byteLen contents) 100) = true := by
    simp [hb]
  simp only [rust_lint_fix_main, if_neg hlt, hread, sliceTo, if_neg hb']

/-- Unfolding of a run with a file path whose read fails. -/
theorem run_eq_of_read_none (args : List String)
    (fs : String → Option (List Char))
    (h2 : 2 ≤ args.length)
    (hread : fs (args.getD 1 "") = none) :
    rust_lint_fix_main args fs =
      { trace := [Effect.printLn (infoMsg (args.getD 1 "")),
                  Effect.readFile (args.getD 1 ""),
                  Effect.printLn couldNotReadMsg],
        outcome := Outcome.exited 0 } := by
  have hlt : ¬ args.length < 2 := by omega
  simp only [rust_lint_fix_main, if_neg hlt, hread]

/-- Unfolding of a run with fewer than two arguments. -/
theorem run_eq_of_short_args (args : List String)
    (fs : String → Option (List Char))
    (h : args.length < 2) :
    rust_lint_fix_main args fs =
      { trace := [Effect.eprintLn usageMsg], outcome := Outcome.exited 1 } := by
  simp only [rust_lint_fix_main, if_pos h]

/-- Claim C1, counterexample: the claim as stated fails on the code.
The file f.txt holds 99 ASCII characters followed by U+00E9, a readable
UTF-8 text of byte length 101 (and 100 characters), so the claim
demands a preview of exactly the first 100 characters; instead the run
panics after the tool-identifying line, printing no preview at all —
only the runtime's panic diagnostic on standard error. -/
theorem C1_counterexample :
    100 ≤ byteLen badContent ∧
    fsBad "f.txt" = some badContent ∧
    rust_lint_fix_main ["rust_lint_fix", "f.txt"] fsBad =
      { trace := [Effect.printLn (infoMsg "f.txt"),
                  Effect.readFile "f.txt",
                  Effect.eprintLn (panicMsg 100)],
        outcome := Outcome.panicked } :=
  ⟨by decide, rfl, by decide⟩

/-- Claim C1, amended: for a readable file whose decoded contents have
byte length L such that byte index min(L, 100) is a character boundary,
the run prints, after the tool-identifying line, a preview holding
exactly the first min(L, 100) bytes of the content — a prefix of the
content of byte length exactly min(L, 100), with no trailing marker —
and the whole content when L < 100, and exits with status 0. -/
theorem C1_theorem (args : List String) (fs : String → Option (List Char))
    (contents : List Char)
    (h2 : 2 ≤ args.length)
    (hread : fs (args.getD 1 "") = some contents)
    (hb : isBoundary contents (min (byteLen contents) 100) = true) :
    rust_lint_fix_main args fs =
      { trace := [Effect.printLn (infoMsg (args.getD 1 "")),
                  Effect.readFile (args.getD 1 ""),
                  Effect.printLn (previewMsg
                    (takeBytes contents (min (byteLen contents) 100)))],
        outcome := Outcome.exited 0 } ∧
    byteLen (takeBytes contents (min (byteLen contents) 100)) =
      min (byteLen contents) 100 ∧
    takeBytes contents (min (byteLen contents) 100) ++
      dropBytes contents (min (byteLen contents) 100) = contents ∧
    (byteLen contents < 100 →
      takeBytes contents (min (byteLen contents) 100) = contents) := by
  refine ⟨run_eq_of_read_some_boundary args fs contents h2 hread hb,
    byteLen_takeBytes contents _ hb,
    takeBytes_append_dropBytes contents _ hb, ?_⟩
  intro hlt
  rw [Nat.min_eq_left (Nat.le_of_lt hlt), takeBytes_byteLen]

/-- Claim C1, witness: the two-character ASCII file hi is previewed
whole, after the tool-identifying line, and the run exits 0. -/
theorem C1_witness :
    rust_lint_fix_main ["rust_lint_fix", "ok.txt"] fsOk =
      { trace := [Effect.printLn (infoMsg "ok.txt"),
                  Effect.readFile "ok.txt",
                  Effect.printLn (previewMsg ['h', 'i'])],
        outcome := Outcome.exited 0 } :=
  ( C1_theorem ["rust_lint_fix", "ok.txt"] fsOk ['h', 'i']
    (by decide) rfl (by decide)).1

/-- Claim C2, counterexample: an invocation that supplies a file path
(two arguments) whose exit status is not 0: reading f.txt succeeds but
the preview slice panics, so the process does not exit normally. -/
theorem C2_counterexample :
    2 ≤ (["rust_lint_fix", "f.txt"] : List String).length ∧
    (rust_lint_fix_main ["rust_lint_fix", "f.txt"] fsBad).outcome ≠
      Outcome.exited 0 :=
  ⟨by decide, by decide⟩

/-- Claim C2, amended: with a file path supplied (argument count at
least 2) the process exits with status 0 — also when the read fails —
except when the read succeeds and byte index min(L, 100) of the content
is not a character boundary, in which case it panics; exit status 1
never occurs with a file path supplied, only on the missing-argument
path. -/
theorem C2_theorem (args : List String) (fs : String → Option (List Char))
    (h2 : 2 ≤ args.length) :
    ((rust_lint_fix_main args fs).outcome = Outcome.exited 0 ∨
      (rust_lint_fix_main args fs).outcome = Outcome.panicked) ∧
    ((rust_lint_fix_main args fs).outcome = Outcome.panicked →
      ∃ contents : List Char, fs (args.getD 1 "") = some contents ∧
        isBoundary contents (min (byteLen contents) 100) = false) := by
  rcases hread : fs (args.getD 1 "") with _ | contents
  · rw [run_eq_of_read_none args fs h2 hread]
    exact ⟨Or.inl rfl, fun h => nomatch h⟩
  · cases hb : isBoundary contents (min (byteLen contents) 100) with
    | false =>
        rw [run_eq_of_read_some_noboundary args fs contents h2 hread hb]
        exact ⟨Or.inr rfl, fun _ => ⟨contents, rfl, hb⟩⟩
    | true =>
        rw [run_eq_of_read_some_boundary args fs contents h2 hread hb]
        exact ⟨Or.inl rfl, fun h => nomatch h⟩

/-- Claim C2, witness: a failed read of missing.txt still ends in a
normal exit, not a panic. -/
theorem C2_witness :
    (rust_lint_fix_main ["rust_lint_fix", "missing.txt"] fsEmpty).outcome =
        Outcome.exited 0 ∨
      (rust_lint_fix_main ["rust_lint_fix", "missing.txt"] fsEmpty).outcome =
        Outcome.panicked :=
  ( C2_theorem ["rust_lint_fix", "missing.txt"] fsEmpty (by decide)).1

/-- Claim C3 (confirmed): the preview slicing is not total.  There is a
readable UTF-8 file of byte length greater than 100 whose byte index
100 is not a character boundary, and on it the program panics instead
of printing a preview. -/
theorem C3_theorem :
    ∃ contents : List Char,
      fsBad "f.txt" = some contents ∧
      100 < byteLen contents ∧
      isBoundary contents 100 = false ∧
      (rust_lint_fix_main ["rust_lint_fix", "f.txt"] fsBad).outcome =
        Outcome.panicked :=
  ⟨badContent, rfl, by decide, by decide, by decide⟩

/-- Claim C4 (confirmed): with fewer than 2 process arguments the run
writes exactly the usage message to the error stream, exits with status
1, and performs no file access at all. -/
theorem C4_theorem (args : List String) (fs : String → Option (List Char))
    (h : args.length < 2) :
    rust_lint_fix_main args fs =
      { trace := [Effect.eprintLn usageMsg], outcome := Outcome.exited 1 } ∧
    noReadEffects (rust_lint_fix_main args fs) = true := by
  refine ⟨run_eq_of_short_args args fs h, ?_⟩
  rw [run_eq_of_short_args args fs h]
  rfl

/-- Claim C4, witness: invoked with the program name alone. -/
theorem C4_witness :
    rust_lint_fix_main ["rust_lint_fix"] fsEmpty =
      { trace := [Effect.eprintLn usageMsg], outcome := Outcome.exited 1 } :=
  ( C4_theorem ["rust_lint_fix"] fsEmpty (by decide)).1

/-- Claim C5 (confirmed): whenever the read fails — the model maps every
failure cause (missing file, permission, invalid encoding) to the same
`none` — the run prints the tool-identifying line and then the one
generic fallback line on standard output, and exits with status 0. -/
theorem C5_theorem (args : List String) (fs : String → Option (List Char))
    (h2 : 2 ≤ args.length)
    (hread : fs (args.getD 1 "") = none) :
    rust_lint_fix_main args fs =
      { trace := [Effect.printLn (infoMsg (args.getD 1 "")),
                  Effect.readFile (args.getD 1 ""),
                  Effect.printLn couldNotReadMsg],
        outcome := Outcome.exited 0 } :=
  run_eq_of_read_none args fs h2 hread

/-- Claim C5, witness: reading missing.txt on the empty filesystem. -/
theorem C5_witness :
    rust_lint_fix_main ["rust_lint_fix", "missing.txt"] fsEmpty =
      { trace := [Effect.printLn (infoMsg "missing.txt"),
                  Effect.readFile "missing.txt",
                  Effect.printLn couldNotReadMsg],
        outcome := Outcome.exited 0 } :=
  C5_theorem ["rust_lint_fix", "missing.txt"] fsEmpty (by decide) rfl

/-- Claim C6 (confirmed): with at least 2 arguments, the first effect of
the run — before the file read, which is the second effect — is the one
informational stdout line made of the bracketed tool tag, the message
naming the intended lint/fix action, and the given file path. -/
theorem C6_theorem (args : List String) (fs : String → Option (List Char))
    (h2 : 2 ≤ args.length) :
    (rust_lint_fix_main args fs).trace.head? =
      some (Effect.printLn (infoMsg (args.getD 1 ""))) ∧
    (rust_lint_fix_main args fs).trace[1]? =
      some (Effect.readFile (args.getD 1 "")) := by
  rcases hread : fs (args.getD 1 "") with _ | contents
  · rw [run_eq_of_read_none args fs h2 hread]
    exact ⟨rfl, rfl⟩
  · cases hb : isBoundary contents (min (byteLen contents) 100) with
    | false =>
        rw [run_eq_of_read_some_noboundary args fs contents h2 hread hb]
        exact ⟨rfl, rfl⟩
    | true =>
        rw [run_eq_of_read_some_boundary args fs contents h2 hread hb]
        exact ⟨rfl, rfl⟩

/-- Claim C6, witness: the info line opens the trace for ok.txt. -/
theorem C6_witness :
    (rust_lint_fix_main ["rust_lint_fix", "ok.txt"] fsOk).trace.head? =
      some (Effect.printLn (infoMsg "ok.txt")) :=
  ( C6_theorem ["rust_lint_fix", "ok.txt"] fsOk (by decide)).1

/-- Claim C7 (confirmed): no run ever performs a filesystem-mutating
effect — the effect trace contains no write, only stdout, stderr and
read effects, so the target file's content is untouched. -/
theorem C7_theorem (args : List String) (fs : String → Option (List Char)) :
    noWriteEffects (rust_lint_fix_main args fs) = true := by
  by_cases hlen : args.length < 2
  · rw [run_eq_of_short_args args fs hlen]
    rfl
  · have h2 : 2 ≤ args.length := by omega
    rcases hread : fs (args.getD 1 "") with _ | contents
    · rw [run_eq_of_read_none args fs h2 hread]
      rfl
    · cases hb : isBoundary contents (min (byteLen contents) 100) with
      | false =>
          rw [run_eq_of_read_some_noboundary args fs contents h2 hread hb]
          rfl
      | true =>
          rw [run_eq_of_read_some_boundary args fs contents h2 hread hb]
          rfl

/-- Claim C8, counterexample: an invocation with 2 arguments that does
write to standard error: reading f.txt (99 ASCII characters then
U+00E9) succeeds, the preview slice panics, and the runtime's panic
diagnostic goes to the error stream, so a run with at least 2 arguments
does not always write nothing to standard error. -/
theorem C8_counterexample :
    2 ≤ (["rust_lint_fix", "f.txt"] : List String).length ∧
    (rust_lint_fix_main ["rust_lint_fix", "f.txt"] fsBad).trace.filter
        isErrEffect = [Effect.eprintLn (panicMsg 100)] :=
  ⟨by decide, by decide⟩

/-- Claim C8, amended: the stderr effects of any run are exactly the
one usage line when fewer than 2 arguments are supplied and nothing
otherwise — except that on the panic path (a readable file whose slice
index is not a character boundary) the run ends panicked and the only
stderr effect is the runtime's one panic diagnostic. -/
theorem C8_theorem (args : List String) (fs : String → Option (List Char)) :
    ((rust_lint_fix_main args fs).trace.filter isErrEffect =
        if args.length < 2 then [Effect.eprintLn usageMsg] else []) ∨
    ((rust_lint_fix_main args fs).outcome = Outcome.panicked ∧
      2 ≤ args.length ∧
      ∃ contents : List Char, fs (args.getD 1 "") = some contents ∧
        isBoundary contents (min (byteLen contents) 100) = false ∧
        (rust_lint_fix_main args fs).trace.filter isErrEffect =
          [Effect.eprintLn (panicMsg (min (byteLen contents) 100))]) := by
  by_cases hlen : args.length < 2
  · rw [run_eq_of_short_args args fs hlen, if_pos hlen]
    exact Or.inl rfl
  · have h2 : 2 ≤ args.length := by omega
    rcases hread : fs (args.getD 1 "") with _ | contents
    · rw [run_eq_of_read_none args fs h2 hread, if_neg hlen]
      exact Or.inl rfl
    · cases hb : isBoundary contents (min (byteLen contents) 100) with
      | false =>
          rw [run_eq_of_read_some_noboundary args fs contents h2 hread hb]
          exact Or.inr ⟨rfl, h2, contents, rfl, hb, rfl⟩
      | true =>
          rw [run_eq_of_read_some_boundary args fs contents h2 hread hb,
            if_neg hlen]
          exact Or.inl rfl

/-- Claim C9 (confirmed): with at least 2 arguments the behaviour
depends only on the argument at index 1 and on the read outcome at that
path: two invocations agreeing there — whatever their program names or
extra arguments at index 2 and beyond — have identical traces and exit
outcomes. -/
theorem C9_theorem (args args2 : List String)
    (fs fs2 : String → Option (List Char))
    (h2 : 2 ≤ args.length) (h2b : 2 ≤ args2.length)
    (hpath : args.getD 1 "" = args2.getD 1 "")
    (hfs : fs (args.getD 1 "") = fs2 (args2.getD 1 "")) :
    rust_lint_fix_main args fs = rust_lint_fix_main args2 fs2 := by
  rcases hread : fs (args.getD 1 "") with _ | contents
  · rw [run_eq_of_read_none args fs h2 hread,
      run_eq_of_read_none args2 fs2 h2b (hfs.symm.trans hread), hpath]
  · cases hb : isBoundary contents (min (byteLen contents) 100) with
    | false =>
        rw [run_eq_of_read_some_noboundary args fs contents h2 hread hb,
          run_eq_of_read_some_noboundary args2 fs2 contents h2b
            (hfs.symm.trans hread) hb, hpath]
    | true =>
        rw [run_eq_of_read_some_boundary args fs contents h2 hread hb,
          run_eq_of_read_some_boundary args2 fs2 contents h2b
            (hfs.symm.trans hread) hb, hpath]

/-- Claim C9, witness: a different program name and an extra third
argument leave the run unchanged. -/
theorem C9_witness :
    rust_lint_fix_main ["rust_lint_fix", "ok.txt"] fsOk =
      rust_lint_fix_main ["other_name", "ok.txt", "--extra"] fsOk :=
  C9_theorem ["rust_lint_fix", "ok.txt"] ["other_name", "ok.txt", "--extra"]
    fsOk fsOk (by decide) (by decide) rfl rfl

/-- Claim C10 (confirmed): the run is deterministic in its inputs: the
same argument list and the same read outcome at the target path — even
under filesystems differing elsewhere — give identical traces and exit
outcomes. -/
theorem C10_theorem (args : List String)
    (fs fs2 : String → Option (List Char))
    (hfs : fs (args.getD 1 "") = fs2 (args.getD 1 "")) :
    rust_lint_fix_main args fs = rust_lint_fix_main args fs2 := by
  by_cases hlen : args.length < 2
  · rw [run_eq_of_short_args args fs hlen, run_eq_of_short_args args fs2 hlen]
  · have h2 : 2 ≤ args.length := by omega
    rcases hread : fs (args.getD 1 "") with _ | contents
    · rw [run_eq_of_read_none args fs h2 hread,
        run_eq_of_read_none args fs2 h2 (hfs.symm.trans hread)]
    · cases hb : isBoundary contents (min (byteLen contents) 100) with
      | false =>
          rw [run_eq_of_read_some_noboundary args fs contents h2 hread hb,
            run_eq_of_read_some_noboundary args fs2 contents h2
              (hfs.symm.trans hread) hb]
      | true =>
          rw [run_eq_of_read_some_boundary args fs contents h2 hread hb,
            run_eq_of_read_some_boundary args fs2 contents h2
              (hfs.symm.trans hread) hb]

/-- Claim C10, witness: two filesystems that agree (both fail) at
zzz.txt but differ at ok.txt give the same run on zzz.txt. -/
theorem C10_witness :
    rust_lint_fix_main ["rust_lint_fix", "zzz.txt"] fsEmpty =
      rust_lint_fix_main ["rust_lint_fix", "zzz.txt"] fsOk :=
  C10_theorem ["rust_lint_fix", "zzz.txt"] fsEmpty fsOk (by decide)
